import Mathlib

/-!
Verification development for the Vision2Schedule repository.

The repository ships the React frontend under src/frontend; its Python
backend (text normalizer, field extractors, confidence scorer, extraction
orchestrator, distance engine and nearby matcher) is referenced by the
frontend and the README but its code is not present in the repository
snapshot.  Those components are therefore modelled from the specification
(spec.md) and marked as such in their doc comments; the frontend pages
(Nearby.jsx, Results.jsx) are embedded from their source.

Numeric conventions of the embedding: the spec's `qualityHint` (a float in
0.0–1.0) is represented in hundredths as a natural number 0–100, so the
confidence score round-to-nearest becomes `(total + 50) / 100` in `Nat`
arithmetic; distances in kilometres are represented as rationals.
-/

/-! ## Character and line helpers (Modelled from the spec, §4.1) -/

/-- Splits a character list on every character satisfying `p`; the separators
are dropped and the (possibly empty) chunks between them are returned. -/
def splitOnP (p : Char → Bool) : List Char → List (List Char)
  | [] => [[]]
  | c :: cs =>
    let r := splitOnP p cs
    if p c then [] :: r
    else
      match r with
      | [] => [[c]]
      | w :: ws => (c :: w) :: ws

/-- Every character of every chunk produced by `splitOnP` comes from the
input and is not a separator. -/
theorem mem_of_mem_splitOnP (p : Char → Bool) :
    ∀ (l : List Char) (w : List Char), w ∈ splitOnP p l → ∀ c ∈ w, c ∈ l ∧ p c = false := by
  intro l
  induction l with
  | nil =>
    intro w hw c hc
    simp only [splitOnP, List.mem_singleton] at hw
    subst hw
    simp at hc
  | cons c0 cs ih =>
    intro w hw c hc
    simp only [splitOnP] at hw
    cases hp : p c0 with
    | true =>
      rw [hp] at hw
      simp only [if_true, List.mem_cons] at hw
      rcases hw with hw | hw
      · subst hw; simp at hc
      · obtain ⟨hmem, hsep⟩ := ih w hw c hc
        exact ⟨List.mem_cons_of_mem _ hmem, hsep⟩
    | false =>
      rw [hp] at hw
      simp only [Bool.false_eq_true, if_false] at hw
      rcases hr : splitOnP p cs with _ | ⟨w0, ws⟩
      · rw [hr] at hw
        simp only [List.mem_singleton] at hw
        subst hw
        simp only [List.mem_singleton] at hc
        subst hc
        exact ⟨List.mem_cons_self _ _, hp⟩
      · rw [hr] at hw
        simp only [List.mem_cons] at hw
        rcases hw with hw | hw
        · subst hw
          simp only [List.mem_cons] at hc
          rcases hc with hc | hc
          · subst hc
            exact ⟨List.mem_cons_self _ _, hp⟩
          · obtain ⟨hmem, hsep⟩ := ih w0 (by rw [hr]; exact List.mem_cons_self _ _) c hc
            exact ⟨List.mem_cons_of_mem _ hmem, hsep⟩
        · obtain ⟨hmem, hsep⟩ := ih w (by rw [hr]; exact List.mem_cons_of_mem _ hw) c hc
          exact ⟨List.mem_cons_of_mem _ hmem, hsep⟩

/-- Modelled from the spec: the whitespace-separated words of a line
(empty chunks dropped). -/
def wordsOf (l : List Char) : List (List Char) :=
  (splitOnP Char.isWhitespace l).filter (fun w => !w.isEmpty)

/-- A line whose characters are all whitespace has no words. -/
theorem wordsOf_eq_nil (l : List Char) (h : ∀ c ∈ l, c.isWhitespace = true) :
    wordsOf l = [] := by
  apply List.filter_eq_nil_iff.mpr
  intro w hw
  rcases w with _ | ⟨c, cs⟩
  · simp
  · obtain ⟨hmem, hsep⟩ := mem_of_mem_splitOnP Char.isWhitespace l _ hw c (List.mem_cons_self _ _)
    rw [h c hmem] at hsep
    simp at hsep

/-- Modelled from the spec: collapse runs of whitespace within a line to
single spaces and strip leading/trailing whitespace. -/
def collapseLine (l : List Char) : List Char :=
  List.intercalate [' '] (wordsOf l)

/-- Modelled from the spec, §4.1 (Text Normalizer): split the raw recognized
text into lines, collapse whitespace within each line, and drop empty
lines, preserving line order. -/
def normalizeLines (s : String) : List (List Char) :=
  ((splitOnP (fun c => c == '\n') s.toList).map collapseLine).filter (fun l => !l.isEmpty)

/-- Normalizing whitespace-only raw text yields an empty line list. -/
theorem normalizeLines_of_ws (s : String) (h : ∀ c ∈ s.toList, c.isWhitespace = true) :
    normalizeLines s = [] := by
  apply List.filter_eq_nil_iff.mpr
  intro l hl
  obtain ⟨raw, hraw, hcoll⟩ := List.mem_map.mp hl
  have hrawws : ∀ c ∈ raw, c.isWhitespace = true := by
    intro c hc
    exact h c (mem_of_mem_splitOnP _ s.toList raw hraw c hc).1
  have : wordsOf raw = [] := wordsOf_eq_nil raw hrawws
  simp [← hcoll, collapseLine, this, List.intercalate]

/-! ## Field extraction results (Modelled from the spec, §3) -/

/-- Modelled from the spec: per-field tagged outcome of one extractor.
`qualityHint` is the spec's 0.0–1.0 local confidence, represented in
hundredths (0–100). -/
inductive FieldExtractionResult where
  | found (value : String) (qualityHint : ℕ)
  | notFound
deriving DecidableEq, Repr

/-! ## Token parsing helpers for the extractors (Modelled from the spec, §4.2) -/

/-- ASCII lower-casing of a character. -/
def asciiLower (c : Char) : Char :=
  if 'A' ≤ c ∧ c ≤ 'Z' then Char.ofNat (c.toNat + 32) else c

/-- ASCII lower-casing of a character list. -/
def lowerL (l : List Char) : List Char := l.map asciiLower

/-- Parses a non-empty all-digit token as a natural number. -/
def natOfDigits (w : List Char) : Option ℕ :=
  if !w.isEmpty && w.all Char.isDigit then
    some (w.foldl (fun a c => 10 * a + (c.toNat - 48)) 0)
  else none

/-- The ASCII digit character for `d % 10`. -/
def digitChar (d : ℕ) : Char := Char.ofNat (48 + d % 10)

/-- Two-digit zero-padded rendering of a number below 100. -/
def twoDigits (n : ℕ) : List Char := [digitChar (n / 10), digitChar n]

/-- Zero-pads a single-digit token to two characters. -/
def padDay (w : List Char) : List Char := if w.length == 1 then '0' :: w else w

/-- Removes comma characters from a token. -/
def stripComma (w : List Char) : List Char := w.filter (fun c => c != ',')

/-- First `some` produced by `f` along a list. -/
def firstSome (f : α → Option β) : List α → Option β
  | [] => none
  | a :: as =>
    match f a with
    | some b => some b
    | none => firstSome f as

/-- Applies `f` to every non-empty tail of the word list, first hit wins. -/
def scanTails (f : List (List Char) → Option β) : List (List Char) → Option β
  | [] => none
  | w :: ws =>
    match f (w :: ws) with
    | some b => some b
    | none => scanTails f ws

/-- Date separator characters of numeric date tokens. -/
def isDateSep (c : Char) : Bool := c == '/' || c == '-'

/-- Modelled from the spec: parse a numeric `D/M/Y` date token, rejecting
calendar-invalid day or month values; the quality hint is higher when the
year is an unambiguous 4-digit year. The value is an ISO-like `Y-M-D`. -/
def parseNumericDate (w : List Char) : Option (List Char × ℕ) :=
  match splitOnP isDateSep w with
  | [ds, ms, ys] =>
    match natOfDigits ds, natOfDigits ms, natOfDigits ys with
    | some d, some m, some _ =>
      if 1 ≤ d && d ≤ 31 && 1 ≤ m && m ≤ 12 then
        some (ys ++ '-' :: padDay ms ++ '-' :: padDay ds,
              if ys.length == 4 then 95 else 65)
      else none
    | _, _, _ => none
  | _ => none

/-- Month-name lookup table: lower-case month name to two-digit month. -/
def monthTable : List (List Char × List Char) :=
  [("january".toList, "01".toList), ("february".toList, "02".toList),
   ("march".toList, "03".toList), ("april".toList, "04".toList),
   ("may".toList, "05".toList), ("june".toList, "06".toList),
   ("july".toList, "07".toList), ("august".toList, "08".toList),
   ("september".toList, "09".toList), ("october".toList, "10".toList),
   ("november".toList, "11".toList), ("december".toList, "12".toList)]

/-- Two-digit month number of a month-name token, case-insensitive. -/
def monthNumberOf (w : List Char) : Option (List Char) :=
  (monthTable.find? (fun mp => mp.1 == lowerL w)).map (fun mp => mp.2)

/-- Renders a month/day pair with an optional following 4-digit year word. -/
def monthDateValue (mm dayTok : List Char) (rest : List (List Char)) : List Char × ℕ :=
  match rest with
  | y :: _ =>
    match natOfDigits y with
    | some _ =>
      if y.length == 4 then (y ++ '-' :: mm ++ '-' :: padDay dayTok, 95)
      else (mm ++ '-' :: padDay dayTok, 65)
    | none => (mm ++ '-' :: padDay dayTok, 65)
  | [] => (mm ++ '-' :: padDay dayTok, 65)

/-- Modelled from the spec: parse month-name date forms such as
"March 14", "March 14, 2025" and "14 March 2025" at the head of a word
list, rejecting calendar-invalid days. -/
def parseMonthDate (ws : List (List Char)) : Option (List Char × ℕ) :=
  match ws with
  | w1 :: w2 :: rest =>
    match monthNumberOf w1, natOfDigits (stripComma w2) with
    | some mm, some d =>
      if 1 ≤ d && d ≤ 31 then some (monthDateValue mm (stripComma w2) rest) else none
    | _, _ =>
      match natOfDigits w1, monthNumberOf (stripComma w2) with
      | some d, some mm =>
        if 1 ≤ d && d ≤ 31 then some (monthDateValue mm w1 rest) else none
      | _, _ => none
  | _ => none

/-- Finds the first date (numeric or month-name form) in one line. -/
def dateFromLine (l : List Char) : Option (List Char × ℕ) :=
  scanTails
    (fun ws =>
      match ws with
      | w :: _ => (parseNumericDate w).orElse (fun _ => parseMonthDate ws)
      | [] => none)
    (wordsOf l)

/-- Strips a case-insensitive suffix from a token, if present. -/
def stripSuffixCI (suf w : List Char) : Option (List Char) :=
  if suf.length ≤ w.length && lowerL (w.drop (w.length - suf.length)) == suf then
    some (w.take (w.length - suf.length))
  else none

/-- Converts a 1–12 hour with an am/pm flag to a 24-hour hour. -/
def hour24Of (isPm : Bool) (h : ℕ) : ℕ :=
  if isPm then (if h == 12 then 12 else h + 12) else (if h == 12 then 0 else h)

/-- Modelled from the spec: parse an `HH:MM` token with an optional attached
am/pm marker, rejecting out-of-range hour and minute values; normalizes to
24-hour `HH:MM`. -/
def parseColonTime (w : List Char) : Option (List Char × ℕ) :=
  let stripped :=
    match stripSuffixCI "am".toList w with
    | some c => (c, some false)
    | none =>
      match stripSuffixCI "pm".toList w with
      | some c => (c, some true)
      | none => (w, (none : Option Bool))
  match splitOnP (fun c => c == ':') stripped.1 with
  | [hs, ms] =>
    match natOfDigits hs, natOfDigits ms with
    | some h, some m =>
      if m ≤ 59 then
        match stripped.2 with
        | none => if h ≤ 23 then some (twoDigits h ++ ':' :: twoDigits m, 85) else none
        | some isPm =>
          if 1 ≤ h && h ≤ 12 then
            some (twoDigits (hour24Of isPm h) ++ ':' :: twoDigits m, 90)
          else none
      else none
    | _, _ => none
  | _ => none

/-- Modelled from the spec: parse a time at the head of a word list: `HH:MM`
(with attached or detached am/pm), the word form "7 pm", or "noon". -/
def parseTimeTok (ws : List (List Char)) : Option (List Char × ℕ) :=
  match ws with
  | [] => none
  | w :: rest =>
    if lowerL w == "noon".toList then some ("12:00".toList, 70)
    else
      let w' :=
        match rest with
        | m :: _ =>
          if lowerL m == "am".toList || lowerL m == "pm".toList then w ++ m else w
        | [] => w
      match parseColonTime w' with
      | some r => some r
      | none =>
        match natOfDigits w, rest with
        | some h, m :: _ =>
          if (lowerL m == "am".toList || lowerL m == "pm".toList) && (1 ≤ h && h ≤ 12) then
            some (twoDigits (hour24Of (lowerL m == "pm".toList) h) ++ ':' :: "00".toList, 70)
          else none
        | _, _ => none

/-- Finds the first time in one line. -/
def timeFromLine (l : List Char) : Option (List Char × ℕ) :=
  scanTails parseTimeTok (wordsOf l)

/-- Phone-number separator characters. -/
def isPhoneSep (c : Char) : Bool :=
  c == '-' || c == '(' || c == ')' || c == '.' || c == '+'

/-- Modelled from the spec: a phone token is digits with optional separators,
length-bounded to plausible phone lengths (7–12 digits). -/
def phoneTok (w : List Char) : Bool :=
  w.all (fun c => c.isDigit || isPhoneSep c) &&
    (7 ≤ (w.filter Char.isDigit).length && (w.filter Char.isDigit).length ≤ 12)

/-- Modelled from the spec: an email token has the `local@domain.tld` shape. -/
def emailTok (w : List Char) : Bool :=
  match splitOnP (fun c => c == '@') w with
  | [loc, dom] =>
    !loc.isEmpty &&
      (2 ≤ (splitOnP (fun c => c == '.') dom).length &&
        (splitOnP (fun c => c == '.') dom).all (fun part => !part.isEmpty))
  | _ => false

/-- Modelled from the spec: contact search within one line; an email match
takes precedence over a phone match on the same line. -/
def contactFromLine (l : List Char) : Option (List Char × ℕ) :=
  match (wordsOf l).find? emailTok with
  | some e => some (e, 90)
  | none => ((wordsOf l).find? phoneTok).map (fun ph => (ph, 75))

/-- Known top-level-domain-like suffixes for website detection. -/
def knownTLD : List (List Char) :=
  ["com".toList, "org".toList, "net".toList, "io".toList, "edu".toList, "gov".toList]

/-- Boolean list-prefix test on characters. -/
def startsWithL (pre w : List Char) : Bool := List.isPrefixOf pre w

/-- Modelled from the spec: a URL-like token (optional scheme, a domain with
a TLD-like suffix, optional path), normalized by prefixing a scheme if
absent. -/
def websiteTok (w : List Char) : Option (List Char × ℕ) :=
  if w.contains '@' then none
  else if startsWithL "http://".toList (lowerL w) || startsWithL "https://".toList (lowerL w) then
    some (w, 90)
  else if startsWithL "www.".toList (lowerL w) then
    some ("http://".toList ++ w, 85)
  else
    match (splitOnP (fun c => c == '.') ((lowerL w).takeWhile (fun c => c != '/'))).getLast? with
    | some tld =>
      if 2 ≤ (splitOnP (fun c => c == '.') ((lowerL w).takeWhile (fun c => c != '/'))).length
          && knownTLD.contains tld then
        some ("http://".toList ++ w, 70)
      else none
    | none => none

/-- Finds the first URL-like token in one line. -/
def websiteFromLine (l : List Char) : Option (List Char × ℕ) :=
  firstSome websiteTok (wordsOf l)

/-- A line containing a date pattern. -/
def isDateLine (l : List Char) : Bool := (dateFromLine l).isSome

/-- A line containing a time pattern. -/
def isTimeLine (l : List Char) : Bool := (timeFromLine l).isSome

/-- A line containing a contact pattern. -/
def isContactLine (l : List Char) : Bool := (contactFromLine l).isSome

/-- A line containing a website pattern. -/
def isWebsiteLine (l : List Char) : Bool := (websiteFromLine l).isSome

/-- A line classified as a date, time, contact or website line. -/
def classifiedLine (l : List Char) : Bool :=
  isDateLine l || isTimeLine l || isContactLine l || isWebsiteLine l

/-- An upper-case ASCII letter. -/
def isUpperAlpha (c : Char) : Bool := 'A' ≤ c && c ≤ 'Z'

/-- Modelled from the spec: title quality scales with line prominence
(earlier is higher) and all-caps styling. -/
def titleHint (i : ℕ) (l : List Char) : ℕ :=
  (if i == 0 then 85 else 60) +
    (if l.any Char.isAlpha && l.all (fun c => !c.isAlpha || isUpperAlpha c) then 10 else 0)

/-- Indexed scan for the first unclassified line long enough to be a title. -/
def titleScan : ℕ → List (List Char) → Option (List Char × ℕ)
  | _, [] => none
  | i, l :: ls =>
    if 4 ≤ l.length && !classifiedLine l then some (l, titleHint i l)
    else titleScan (i + 1) ls

/-- Strips whitespace from both ends of a character list. -/
def trimBoth (l : List Char) : List Char :=
  ((l.dropWhile Char.isWhitespace).reverse.dropWhile Char.isWhitespace).reverse

/-- Remainder of a line after a case-insensitive leading keyword, with any
following colon and whitespace stripped. -/
def dropKw (kw l : List Char) : Option (List Char) :=
  if startsWithL kw (lowerL l) then
    some (trimBoth ((l.drop kw.length).dropWhile (fun c => c == ':' || c.isWhitespace)))
  else none

/-- Modelled from the spec: a venue line announced by a location-indicating
keyword. -/
def venueKwLine (l : List Char) : Option (List Char) :=
  (dropKw "at ".toList l).orElse fun _ =>
    (dropKw "venue".toList l).orElse fun _ => dropKw "location".toList l

/-- Street-suffix style tokens indicating an address-like line. -/
def streetToks : List (List Char) :=
  ["street".toList, "st".toList, "ave".toList, "avenue".toList, "road".toList,
   "rd".toList, "blvd".toList, "hall".toList, "room".toList, "center".toList,
   "centre".toList, "auditorium".toList, "park".toList]

/-- A line containing an address-like token. -/
def addressLine (l : List Char) : Bool :=
  (wordsOf (lowerL l)).any (fun w => streetToks.contains (stripComma w))

/-- The longest line not classified as a date, time, contact or website. -/
def longestUnclassified (nt : List (List Char)) : Option (List Char) :=
  (nt.filter (fun l => !classifiedLine l)).foldl
    (fun acc l =>
      match acc with
      | none => some l
      | some b => if b.length < l.length then some l else some b)
    none

/-- Modelled from the spec: keywords announcing an organizer line. -/
def organizerKws : List (List Char) :=
  ["hosted by".toList, "presented by".toList, "organized by".toList]

/-- Index of the first occurrence of `pat` inside `l`, if any. -/
def findSubIdx (pat l : List Char) : Option ℕ :=
  (List.range (l.length + 1)).find? (fun i => startsWithL pat (l.drop i))

/-- Modelled from the spec: the text following an organizer-indicating
keyword on one line. -/
def organizerFromLine (l : List Char) : Option (List Char) :=
  firstSome
    (fun kw => (findSubIdx kw (lowerL l)).map (fun i => trimBoth (l.drop (i + kw.length))))
    organizerKws

/-- Modelled from the spec: the fixed category keyword vocabulary. -/
def categoryVocab : List (List Char) :=
  ["music".toList, "workshop".toList, "conference".toList, "sale".toList,
   "festival".toList, "concert".toList, "party".toList, "exhibition".toList,
   "seminar".toList, "meetup".toList]

/-- First vocabulary keyword occurring in one line, case-insensitive. -/
def categoryFromLine (l : List Char) : Option (List Char) :=
  firstSome
    (fun w => if categoryVocab.contains (stripComma w) then some (stripComma w) else none)
    (wordsOf (lowerL l))

/-! ## The eight field extractors (Modelled from the spec, §4.2) -/

/-- Modelled from the spec: date extractor; among multiple matches prefers
the one nearest the top of the text. -/
def dateExtract (nt : List (List Char)) : FieldExtractionResult :=
  match firstSome dateFromLine nt with
  | some vh => .found (String.mk vh.1) vh.2
  | none => .notFound

/-- Modelled from the spec: time extractor normalizing to 24-hour `HH:MM`. -/
def timeExtract (nt : List (List Char)) : FieldExtractionResult :=
  match firstSome timeFromLine nt with
  | some vh => .found (String.mk vh.1) vh.2
  | none => .notFound

/-- Modelled from the spec: title extractor taking the first sufficiently
long line not classified as a date, time, contact or website pattern. -/
def titleExtract (nt : List (List Char)) : FieldExtractionResult :=
  match titleScan 0 nt with
  | some vh => .found (String.mk vh.1) vh.2
  | none => .notFound

/-- Modelled from the spec: venue extractor; keyword lines first, then
address-like lines, then the longest remaining unclassified line. -/
def venueExtract (nt : List (List Char)) : FieldExtractionResult :=
  match firstSome venueKwLine nt with
  | some v => if v.isEmpty then .notFound else .found (String.mk v) 85
  | none =>
    match nt.find? addressLine with
    | some l => .found (String.mk (trimBoth l)) 70
    | none =>
      match longestUnclassified nt with
      | some l => if 4 ≤ l.length then .found (String.mk l) 40 else .notFound
      | none => .notFound

/-- Modelled from the spec: organizer extractor keyed on organizer-indicating
keywords. -/
def organizerExtract (nt : List (List Char)) : FieldExtractionResult :=
  match firstSome organizerFromLine nt with
  | some v => if v.isEmpty then .notFound else .found (String.mk v) 85
  | none => .notFound

/-- Modelled from the spec: contact extractor (phone and email patterns,
email precedence within a line). -/
def contactExtract (nt : List (List Char)) : FieldExtractionResult :=
  match firstSome contactFromLine nt with
  | some vh => .found (String.mk vh.1) vh.2
  | none => .notFound

/-- Modelled from the spec: website extractor with scheme normalization. -/
def websiteExtract (nt : List (List Char)) : FieldExtractionResult :=
  match firstSome websiteFromLine nt with
  | some vh => .found (String.mk vh.1) vh.2
  | none => .notFound

/-- Modelled from the spec: category extractor over the fixed vocabulary,
first match wins. -/
def categoryExtract (nt : List (List Char)) : FieldExtractionResult :=
  match firstSome categoryFromLine nt with
  | some v => .found (String.mk v) 80
  | none => .notFound

/-! ## Confidence scorer and extraction orchestrator
(Modelled from the spec, §4.3 and §4.4) -/

/-- The eight target fields of the extraction pipeline. -/
inductive FieldKind where
  | title | date | time | venue | organizer | contact | website | category
deriving DecidableEq, Repr

/-- Modelled from the spec: fixed per-field importance weights, title and
date weighted highest, contact/website/organizer lowest, summing to 100. -/
def fieldWeight : FieldKind → ℕ
  | .title => 25
  | .date => 25
  | .time => 15
  | .venue => 15
  | .organizer => 4
  | .contact => 4
  | .website => 4
  | .category => 8

/-- A found field contributes its quality hint (hundredths), a missing field
contributes zero. -/
def contribution : FieldExtractionResult → ℕ
  | .notFound => 0
  | .found _ h => h

/-- The full set of eight per-field extraction outcomes. -/
structure ExtractionResults where
  title : FieldExtractionResult
  date : FieldExtractionResult
  time : FieldExtractionResult
  venue : FieldExtractionResult
  organizer : FieldExtractionResult
  contact : FieldExtractionResult
  website : FieldExtractionResult
  category : FieldExtractionResult
deriving DecidableEq, Repr

/-- The outcome recorded for one field. -/
def getR (r : ExtractionResults) : FieldKind → FieldExtractionResult
  | .title => r.title
  | .date => r.date
  | .time => r.time
  | .venue => r.venue
  | .organizer => r.organizer
  | .contact => r.contact
  | .website => r.website
  | .category => r.category

/-- Replaces the outcome recorded for one field. -/
def setR (r : ExtractionResults) : FieldKind → FieldExtractionResult → ExtractionResults
  | .title, v => { r with title := v }
  | .date, v => { r with date := v }
  | .time, v => { r with time := v }
  | .venue, v => { r with venue := v }
  | .organizer, v => { r with organizer := v }
  | .contact, v => { r with contact := v }
  | .website, v => { r with website := v }
  | .category, v => { r with category := v }

/-- The canonical enumeration order of the eight fields. -/
def canonicalOrder : List FieldKind :=
  [.title, .date, .time, .venue, .organizer, .contact, .website, .category]

/-- Modelled from the spec: weight times quality-hint total over the eight
fields (both factors in their integer scale). -/
def weightedTotal (r : ExtractionResults) : ℕ :=
  (canonicalOrder.map (fun f => fieldWeight f * contribution (getR r f))).sum

/-- Modelled from the spec, §4.3: the 0–100 integer confidence score: the
weighted total, rounded to the nearest integer and clamped to [0, 100]
(the lower clamp is implicit in `Nat`). -/
def confidenceScore (r : ExtractionResults) : ℕ :=
  min 100 ((weightedTotal r + 50) / 100)

/-- Modelled from the spec: the structured output record. -/
structure EventRecord where
  title : Option String
  date : Option String
  time : Option String
  venue : Option String
  organizer : Option String
  contact : Option String
  website : Option String
  category : Option String
  confidenceScore : ℕ
deriving DecidableEq, Repr

/-- The optional value carried by an extraction outcome. -/
def valueOf : FieldExtractionResult → Option String
  | .notFound => none
  | .found v _ => some v

/-- Assembles the final record from the eight outcomes and their score. -/
def recordOf (r : ExtractionResults) : EventRecord :=
  ⟨valueOf r.title, valueOf r.date, valueOf r.time, valueOf r.venue, valueOf r.organizer,
   valueOf r.contact, valueOf r.website, valueOf r.category, confidenceScore r⟩

/-- The extractor implementation for one field. -/
def extractorFor : FieldKind → List (List Char) → FieldExtractionResult
  | .title => titleExtract
  | .date => dateExtract
  | .time => timeExtract
  | .venue => venueExtract
  | .organizer => organizerExtract
  | .contact => contactExtract
  | .website => websiteExtract
  | .category => categoryExtract

/-- The all-absent starting accumulator of an extraction run. -/
def emptyResults : ExtractionResults :=
  ⟨.notFound, .notFound, .notFound, .notFound, .notFound, .notFound, .notFound, .notFound⟩

/-- Runs the extractors over the normalized text in the given invocation
order, recording each field's outcome. -/
def runResults (order : List FieldKind) (nt : List (List Char)) : ExtractionResults :=
  order.foldl (fun acc f => setR acc f (extractorFor f nt)) emptyResults

/-- Modelled from the spec, §4.4: normalize, run the extractors in the given
order, assemble the record and score it. -/
def runPipeline (order : List FieldKind) (s : String) : EventRecord :=
  recordOf (runResults order (normalizeLines s))

/-- Modelled from the spec, §6: the extraction entry point. -/
def extract (s : String) : EventRecord :=
  runPipeline canonicalOrder s

/-- The all-absent record with score zero. -/
def emptyEventRecord : EventRecord :=
  ⟨none, none, none, none, none, none, none, none, 0⟩

/-- A single field's outcome improving: NotFound to Found, or Found to Found
with a quality hint at least as high. -/
inductive ImprovesTo : FieldExtractionResult → FieldExtractionResult → Prop where
  | ofNotFound (v : String) (h : ℕ) : ImprovesTo .notFound (.found v h)
  | ofQuality (v v' : String) (h h' : ℕ) (hle : h ≤ h') :
      ImprovesTo (.found v h) (.found v' h')

/-- An improved outcome never contributes less to the weighted total. -/
theorem contribution_le_of_improvesTo {a b : FieldExtractionResult}
    (h : ImprovesTo a b) : contribution a ≤ contribution b := by
  cases h with
  | ofNotFound v hq => exact Nat.zero_le _
  | ofQuality v v' hq hq' hle => exact hle

/-- Reading a field after writing one. -/
theorem getR_setR (r : ExtractionResults) (f : FieldKind) (v : FieldExtractionResult)
    (g : FieldKind) : getR (setR r f v) g = if g = f then v else getR r g := by
  cases f <;> cases g <;> rfl

/-- Every field is listed in the canonical order. -/
theorem mem_canonicalOrder (g : FieldKind) : g ∈ canonicalOrder := by
  cases g <;> simp [canonicalOrder]

/-- The outcome recorded for a field after a fold of extractor writes. -/
theorem getR_foldl (nt : List (List Char)) (order : List FieldKind) :
    ∀ (acc : ExtractionResults) (g : FieldKind),
      getR (order.foldl (fun a f => setR a f (extractorFor f nt)) acc) g
        = if g ∈ order then extractorFor g nt else getR acc g := by
  induction order with
  | nil => intro acc g; simp
  | cons f rest ih =>
    intro acc g
    simp only [List.foldl_cons]
    rw [ih]
    by_cases hg : g ∈ rest
    · simp [hg]
    · rw [if_neg hg, getR_setR]
      by_cases hgf : g = f
      · simp [hgf]
      · simp [hgf, hg]

/-- Results agreeing on every field are equal. -/
theorem resultsEq (r r' : ExtractionResults) (h : ∀ g, getR r g = getR r' g) : r = r' := by
  cases r
  cases r'
  simp only [ExtractionResults.mk.injEq]
  exact ⟨h .title, h .date, h .time, h .venue, h .organizer, h .contact, h .website, h .category⟩

/-- Any invocation order that covers all eight fields produces the canonical
results. -/
theorem runResults_complete (order : List FieldKind) (nt : List (List Char))
    (h : ∀ f, f ∈ order) : runResults order nt = runResults canonicalOrder nt := by
  apply resultsEq
  intro g
  rw [runResults, runResults, getR_foldl, getR_foldl]
  rw [if_pos (h g), if_pos (mem_canonicalOrder g)]

/-! ## Nearby matcher (Modelled from the spec, §4.6) -/

/-- Lexicographic comparison of character lists by code point. -/
def lexLeB : List Char → List Char → Bool
  | [], _ => true
  | _ :: _, [] => false
  | c :: cs, d :: ds =>
    if c.toNat < d.toNat then true
    else if d.toNat < c.toNat then false
    else lexLeB cs ds

/-- Lexicographic comparison is total. -/
theorem lexLeB_total : ∀ a b : List Char, lexLeB a b = true ∨ lexLeB b a = true := by
  intro a
  induction a with
  | nil => intro b; left; rfl
  | cons x xs ih =>
    intro b
    cases b with
    | nil => right; rfl
    | cons y ys =>
      simp only [lexLeB]
      rcases Nat.lt_trichotomy x.toNat y.toNat with h1 | h1 | h1
      · left; rw [if_pos h1]
      · rw [if_neg (by omega), if_neg (by omega), if_neg (by omega), if_neg (by omega)]
        exact ih ys
      · right; rw [if_pos h1]

/-- Lexicographic comparison decomposed at a cons pair. -/
theorem lexLeB_cons (x y : Char) (xs ys : List Char)
    (h : lexLeB (x :: xs) (y :: ys) = true) :
    x.toNat < y.toNat ∨ (x.toNat = y.toNat ∧ lexLeB xs ys = true) := by
  simp only [lexLeB] at h
  rcases Nat.lt_trichotomy x.toNat y.toNat with h1 | h1 | h1
  · exact Or.inl h1
  · rw [if_neg (by omega), if_neg (by omega)] at h
    exact Or.inr ⟨h1, h⟩
  · rw [if_neg (by omega), if_pos h1] at h
    exact absurd h (by simp)

/-- Lexicographic comparison is transitive. -/
theorem lexLeB_trans : ∀ a b c : List Char,
    lexLeB a b = true → lexLeB b c = true → lexLeB a c = true := by
  intro a
  induction a with
  | nil => intro b c _ _; rfl
  | cons x xs ih =>
    intro b c hab hbc
    cases b with
    | nil => simp [lexLeB] at hab
    | cons y ys =>
      cases c with
      | nil => simp [lexLeB] at hbc
      | cons z zs =>
        rcases lexLeB_cons x y xs ys hab with h1 | ⟨h1, hrec1⟩ <;>
          rcases lexLeB_cons y z ys zs hbc with h2 | ⟨h2, hrec2⟩ <;>
          simp only [lexLeB]
        · rw [if_pos (by omega)]
        · rw [if_pos (by omega)]
        · rw [if_pos (by omega)]
        · rw [if_neg (by omega), if_neg (by omega)]
          exact ih ys zs hrec1 hrec2

/-- Traversal keeping only elements whose key has not been seen yet. -/
def dedupByGo (key : α → String) (seen : List String) : List α → List α
  | [] => []
  | x :: xs =>
    if key x ∈ seen then dedupByGo key seen xs
    else x :: dedupByGo key (key x :: seen) xs

/-- Keeps the first occurrence of each key, dropping later collisions. -/
def dedupBy (key : α → String) (l : List α) : List α := dedupByGo key [] l

/-- The traversal only removes elements. -/
theorem dedupByGo_sublist (key : α → String) :
    ∀ (l : List α) (seen : List String), List.Sublist (dedupByGo key seen l) l := by
  intro l
  induction l with
  | nil => intro seen; simp [dedupByGo]
  | cons x xs ih =>
    intro seen
    rw [dedupByGo]
    by_cases hx : key x ∈ seen
    · rw [if_pos hx]
      exact (ih seen).cons x
    · rw [if_neg hx]
      exact (ih (key x :: seen)).cons₂ x

/-- Deduplication only removes elements. -/
theorem dedupBy_sublist (key : α → String) (l : List α) : List.Sublist (dedupBy key l) l :=
  dedupByGo_sublist key l []

/-- Keys of the traversal's output avoid the seen set. -/
theorem key_notin_seen_of_mem_dedupByGo (key : α → String) :
    ∀ (l : List α) (seen : List String) (e : α),
      e ∈ dedupByGo key seen l → key e ∉ seen := by
  intro l
  induction l with
  | nil => intro seen e he; simp [dedupByGo] at he
  | cons x xs ih =>
    intro seen e he
    rw [dedupByGo] at he
    by_cases hx : key x ∈ seen
    · rw [if_pos hx] at he
      exact ih seen e he
    · rw [if_neg hx] at he
      rcases List.mem_cons.mp he with he | he
      · subst he; exact hx
      · intro habs
        exact ih (key x :: seen) e he (List.mem_cons_of_mem _ habs)

/-- After the traversal no two elements share a key. -/
theorem dedupByGo_pairwise (key : α → String) :
    ∀ (l : List α) (seen : List String),
      (dedupByGo key seen l).Pairwise (fun a b => key a ≠ key b) := by
  intro l
  induction l with
  | nil => intro seen; simp [dedupByGo]
  | cons x xs ih =>
    intro seen
    rw [dedupByGo]
    by_cases hx : key x ∈ seen
    · rw [if_pos hx]
      exact ih seen
    · rw [if_neg hx]
      refine List.Pairwise.cons ?_ (ih (key x :: seen))
      intro b hb hkey
      exact key_notin_seen_of_mem_dedupByGo key xs (key x :: seen) b hb
        (hkey ▸ List.mem_cons_self _ _)

/-- After deduplication no two elements share a key. -/
theorem dedupBy_pairwise (key : α → String) (l : List α) :
    (dedupBy key l).Pairwise (fun a b => key a ≠ key b) :=
  dedupByGo_pairwise key l []

/-- Modelled from the spec, §3: the external feed's view of an event; the
coordinate type is a parameter of the matcher. -/
structure CandidateEvent (α : Type) where
  id : Option String
  title : String
  venue : String
  coord : Option α
  category : Option String
  date : Option String

/-- Modelled from the spec, §3: a candidate event together with its computed
distance in kilometres. -/
structure RankedNearbyEvent where
  id : Option String
  title : String
  venue : String
  category : Option String
  date : Option String
  distanceKm : ℚ
deriving DecidableEq, Repr

/-- Modelled from the spec, §7: the two distinguishable matcher errors. -/
inductive NearbyError where
  | venueNotResolved
  | feedUnavailable
deriving DecidableEq, Repr

/-- Modelled from the spec: the two caller-selected matcher modes. -/
inductive NearbyMode where
  | sameCategory
  | allNearby
deriving DecidableEq, Repr

/-- Modelled from the spec: the fixed 5 km search radius, as a named
constant. -/
def searchRadiusKm : ℚ := 5

/-- Modelled from the spec, §4.6 point 5: the stable identity — the feed id
if present, else a normalized title+venue composite. -/
def identityKey (e : RankedNearbyEvent) : String :=
  match e.id with
  | some i => "id:" ++ i
  | none => String.mk (lowerL e.title.toList) ++ "|" ++ String.mk (lowerL e.venue.toList)

/-- Ranking order: ascending distance, ties broken by title lexical order. -/
def rankRel (a b : RankedNearbyEvent) : Prop :=
  a.distanceKm < b.distanceKm ∨
    (a.distanceKm = b.distanceKm ∧ lexLeB a.title.toList b.title.toList = true)

instance : DecidableRel rankRel := fun a b => by
  unfold rankRel
  infer_instance

instance : IsTotal RankedNearbyEvent rankRel := by
  constructor
  intro a b
  rcases lt_trichotomy a.distanceKm b.distanceKm with h | h | h
  · exact Or.inl (Or.inl h)
  · rcases lexLeB_total a.title.toList b.title.toList with hl | hl
    · exact Or.inl (Or.inr ⟨h, hl⟩)
    · exact Or.inr (Or.inr ⟨h.symm, hl⟩)
  · exact Or.inr (Or.inl h)

instance : IsTrans RankedNearbyEvent rankRel := by
  constructor
  intro a b c hab hbc
  rcases hab with h1 | ⟨h1, hl1⟩ <;> rcases hbc with h2 | ⟨h2, hl2⟩
  · exact Or.inl (h1.trans h2)
  · exact Or.inl (h2 ▸ h1)
  · exact Or.inl (h1 ▸ h2)
  · exact Or.inr ⟨h1.trans h2, lexLeB_trans _ _ _ hl1 hl2⟩

/-- Case-insensitive exact category match; an absent category on either side
never matches. -/
def catMatches (eventCat : Option String) (queryCat : Option String) : Bool :=
  match eventCat, queryCat with
  | some a, some b => lowerL a.toList == lowerL b.toList
  | _, _ => false

/-- Pairs a candidate with its computed distance, dropping the coordinate. -/
def mkRanked (c : CandidateEvent α) (d : ℚ) : RankedNearbyEvent :=
  ⟨c.id, c.title, c.venue, c.category, c.date, d⟩

/-- Modelled from the spec, §4.6 point 3: pair each candidate with its
computed distance from the origin, resolving its venue when it carries no
coordinate; candidates with no resolvable coordinate are dropped (§7,
invalid candidate data). -/
def rankCandidates (resolve : String → Option α) (dist : α → α → ℚ) (origin : α)
    (cands : List (CandidateEvent α)) : List RankedNearbyEvent :=
  cands.filterMap (fun c =>
    match c.coord.orElse (fun _ => resolve c.venue) with
    | some p => some (mkRanked c (dist origin p))
    | none => none)

/-- Modelled from the spec, §4.6 point 3: discard candidates beyond the
fixed 5 km radius. -/
def radiusFilter (l : List RankedNearbyEvent) : List RankedNearbyEvent :=
  l.filter (fun e => decide (e.distanceKm ≤ searchRadiusKm))

/-- Modelled from the spec, §4.6 point 4: the mode's category filter;
`AllNearby` applies no filter. -/
def modeFilter (mode : NearbyMode) (category : Option String)
    (l : List RankedNearbyEvent) : List RankedNearbyEvent :=
  match mode with
  | .allNearby => l
  | .sameCategory => l.filter (fun e => catMatches e.category category)

/-- Modelled from the spec, §4.6 points 5 and 6: sort ascending by distance
with title tie-break, then deduplicate by stable identity; the first (hence
closest) instance of each identity is kept. -/
def rankAndDedup (l : List RankedNearbyEvent) : List RankedNearbyEvent :=
  dedupBy identityKey (List.insertionSort rankRel l)

/-- Modelled from the spec, §4.6: the nearby matcher. Resolves the venue
(failure is the distinct `venueNotResolved` error), takes the feed result
(failure is the distinct `feedUnavailable` error), then ranks, filters,
sorts and deduplicates the candidates. The geo resolver, distance engine
and feed result are parameters. -/
def findNearby (resolve : String → Option α) (dist : α → α → ℚ)
    (feed : Except Unit (List (CandidateEvent α))) (venue : String)
    (category : Option String) (mode : NearbyMode) :
    Except NearbyError (List RankedNearbyEvent) :=
  match resolve venue with
  | none => .error .venueNotResolved
  | some origin =>
    match feed with
    | .error _ => .error .feedUnavailable
    | .ok cands =>
      .ok (rankAndDedup (modeFilter mode category
        (radiusFilter (rankCandidates resolve dist origin cands))))

/-! ## Distance engine (Modelled from the spec, §4.5).
The spec's floats are modelled over the real numbers, where the haversine
formula is exact; "finite, no NaN" is inherent in the real-valued model. -/

/-- Modelled from the spec, §3: a latitude/longitude pair in degrees. -/
structure Coordinate where
  lat : ℝ
  lng : ℝ

/-- Degrees to radians. -/
noncomputable def degToRad (d : ℝ) : ℝ := d * Real.pi / 180

/-- Mean Earth radius in kilometres. -/
def earthRadiusKm : ℝ := 6371

/-- Modelled from the spec, §4.5: great-circle distance in kilometres by the
haversine formula. -/
noncomputable def distance (a b : Coordinate) : ℝ :=
  2 * earthRadiusKm *
    Real.arcsin (Real.sqrt
      (Real.sin ((degToRad b.lat - degToRad a.lat) / 2) ^ 2 +
        Real.cos (degToRad a.lat) * Real.cos (degToRad b.lat) *
          Real.sin ((degToRad b.lng - degToRad a.lng) / 2) ^ 2))

/-- The squared sine of a half-difference is symmetric in its endpoints. -/
theorem sin_half_sub_sq_comm (x y : ℝ) :
    Real.sin ((x - y) / 2) ^ 2 = Real.sin ((y - x) / 2) ^ 2 := by
  rw [show (y - x) / 2 = -((x - y) / 2) by ring, Real.sin_neg, neg_sq]

/-! ## Nearby page model (from src/frontend/src/pages/Nearby.jsx) -/

/-- An event row as rendered by the Nearby page. -/
structure NearbyPageEvent where
  title : String
  venue : String
  distance : Option ℚ
  date : Option String
deriving DecidableEq, Repr

/-- The page state held in React state hooks: `events`, `loading`, `error`
(Nearby.jsx lines 11–14; `showAll` is passed separately). -/
structure NearbyState where
  events : List NearbyPageEvent
  loading : Bool
  error : String
deriving DecidableEq, Repr

/-- The initial hook values: `useState([])`, `useState(false)`,
`useState('')`. -/
def initialNearbyState : NearbyState := ⟨[], false, ""⟩

/-- The query parameters of one GET request to the nearby endpoint
(Nearby.jsx lines 23–29). -/
structure NearbyRequest where
  venue : String
  category : String
  show_all : Bool
deriving DecidableEq, Repr

/-- The outcome of the awaited HTTP call: a response body (possibly null)
or an error with an optional `detail` field. -/
inductive FetchOutcome where
  | success (data : Option (List NearbyPageEvent))
  | failure (detail : Option String)

/-- The error message set by the catch branch (Nearby.jsx line 32):
`err.response?.data?.detail || 'Failed to fetch nearby events.'`; a missing
or empty detail falls back to the fixed message. -/
def fetchErrorMessage (detail : Option String) : String :=
  match detail with
  | some d => if d = "" then "Failed to fetch nearby events." else d
  | none => "Failed to fetch nearby events."

/-- One completed run of `fetchNearby` (Nearby.jsx lines 16–36): with an
empty venue it returns before issuing any request; otherwise it issues
exactly one request carrying the current `showAll` flag, then either stores
the response list (null becomes `[]`) with the error cleared, or stores the
error message leaving the events unchanged; `loading` ends false either
way. Returns the final state and the list of requests issued. -/
def fetchNearby (initialVenue initialCategory : String) (showAll : Bool)
    (outcome : FetchOutcome) (s : NearbyState) : NearbyState × List NearbyRequest :=
  if initialVenue = "" then (s, [])
  else
    match outcome with
    | .success data =>
      ({ events := data.getD [], loading := false, error := "" },
       [⟨initialVenue, initialCategory, showAll⟩])
    | .failure detail =>
      ({ events := s.events, loading := false, error := fetchErrorMessage detail },
       [⟨initialVenue, initialCategory, showAll⟩])

/-- The error banner renders exactly when `error` is truthy (Nearby.jsx
lines 79–83). -/
def showsErrorBanner (s : NearbyState) : Bool := s.error != ""

/-- The zero-results empty state renders exactly when not loading, no error,
and the list is empty (Nearby.jsx lines 85–89). -/
def showsEmptyState (s : NearbyState) : Bool :=
  !s.loading && s.error == "" && s.events.isEmpty

/-! ## Results page model (from src/frontend/src/pages/Results.jsx) -/

/-- A JavaScript value as it matters to the Results page render logic. -/
inductive JsValue where
  | undef
  | null
  | str (s : String)
  | num (n : Int)
deriving DecidableEq, Repr

/-- JavaScript truthiness for the modelled values. -/
def truthy : JsValue → Bool
  | .undef => false
  | .null => false
  | .str s => s != ""
  | .num n => n != 0

/-- What the confidence header shows (Results.jsx lines 56–58). -/
inductive ConfidenceDisplay where
  | na
  | percent (v : JsValue)
deriving DecidableEq, Repr

/-- Results.jsx line 57: a truthy `confidence_score` renders as a
percentage, anything falsy renders as the literal text N/A. -/
def renderConfidence (v : JsValue) : ConfidenceDisplay :=
  if truthy v then .percent v else .na

/-- What one detail row shows (Results.jsx lines 9–14). -/
inductive DetailDisplay where
  | notFoundText
  | shown (v : JsValue)
deriving DecidableEq, Repr

/-- Results.jsx line 12: a falsy field value renders as the literal text
"Not found". -/
def detailItem (v : JsValue) : DetailDisplay :=
  if truthy v then .shown v else .notFoundText

/-- The identifiers bound in the module scope of Results.jsx: the imports of
lines 1–2 and the declarations inside the component (lines 4–48). -/
def resultsModuleScope : List String :=
  ["React", "useState", "useLocation", "useNavigate", "Results", "location",
   "navigate", "eventData", "detailItem", "getScoreColor", "showScheduleModal",
   "setShowScheduleModal", "handleDownloadICS", "handleGoogleSync"]

/-- The observable outcome of one click handler run. -/
inductive HandlerOutcome where
  | completed
  | failureAlert (msg : String)
deriving DecidableEq, Repr

/-- Results.jsx lines 24–39: the handler body evaluates the identifier
`api`; when it is not bound in scope this throws a ReferenceError inside
the try block, and the catch branch raises the failure alert. -/
def handleDownloadICS (scope : List String) (eventData : EventRecord) : HandlerOutcome :=
  if scope.contains "api" then .completed
  else .failureAlert "ICS download failed. Make sure the event is saved."

/-- Results.jsx lines 41–48: same evaluation model for the Google sync
handler. -/
def handleGoogleSync (scope : List String) (eventData : EventRecord) : HandlerOutcome :=
  if scope.contains "api" then .completed
  else .failureAlert "Google Sync failed."

/-! ## Claim theorems -/

/-- Claim C7: for every pair of coordinates the distance engine is
symmetric, zero on identical points, and non-negative; in the real-valued
model the result is a real number, hence finite with no NaN. -/
theorem distance_symm_self_nonneg (a b : Coordinate) :
    distance a b = distance b a ∧ distance a a = 0 ∧ 0 ≤ distance a b := by
  refine ⟨?_, ?_, ?_⟩
  · unfold distance
    rw [sin_half_sub_sq_comm (degToRad b.lat) (degToRad a.lat),
        sin_half_sub_sq_comm (degToRad b.lng) (degToRad a.lng),
        mul_comm (Real.cos (degToRad a.lat)) (Real.cos (degToRad b.lat))]
  · unfold distance
    simp [sub_self, Real.sin_zero, Real.sqrt_zero, Real.arcsin_zero]
  · apply mul_nonneg
    · norm_num [earthRadiusKm]
    · exact Real.arcsin_nonneg.mpr (Real.sqrt_nonneg _)

/-- Claim C8: the identifier `api` is not bound in the Results page module
scope, so for every event record both calendar handlers end in the failure
alert; neither ICS download nor Google sync can succeed from this page. -/
theorem results_api_unbound :
    resultsModuleScope.contains "api" = false ∧
    ∀ eventData : EventRecord,
      handleDownloadICS resultsModuleScope eventData =
          .failureAlert "ICS download failed. Make sure the event is saved." ∧
        handleGoogleSync resultsModuleScope eventData = .failureAlert "Google Sync failed." := by
  refine ⟨by decide, ?_⟩
  intro eventData
  exact ⟨rfl, rfl⟩

/-- Claim C9: the Results page renders N/A for every falsy confidence score,
so a score of exactly 0 is indistinguishable from an absent score, and
every absent, null or empty-string field renders as the text "Not found". -/
theorem results_falsy_rendering :
    renderConfidence (.num 0) = .na ∧
    renderConfidence .undef = .na ∧
    (∀ v : JsValue, truthy v = false → renderConfidence v = .na ∧ detailItem v = .notFoundText) ∧
    detailItem .undef = .notFoundText ∧
    detailItem .null = .notFoundText ∧
    detailItem (.str "") = .notFoundText := by
  refine ⟨rfl, rfl, ?_, rfl, rfl, rfl⟩
  intro v h
  constructor <;> simp [renderConfidence, detailItem, h]

/-- Witness for C9 at the concrete value 0. -/
theorem results_falsy_rendering_witness :
    truthy (.num 0) = false ∧
      (renderConfidence (.num 0) = .na ∧ detailItem (.num 0) = .notFoundText) :=
  ⟨by decide, results_falsy_rendering.2.2.1 (.num 0) (by decide)⟩

/-- Claim C10: entering the Nearby page with an empty venue leaves the state
untouched and issues no request, and the untouched initial state renders the
zero-results empty state with no error. -/
theorem nearby_empty_venue_no_request :
    (∀ (cat : String) (sa : Bool) (outcome : FetchOutcome) (s : NearbyState),
        fetchNearby "" cat sa outcome s = (s, [])) ∧
    showsEmptyState initialNearbyState = true ∧
    showsErrorBanner initialNearbyState = false := by
  refine ⟨?_, rfl, rfl⟩
  intro cat sa outcome s
  rfl

/-- Claim C1: the pipeline's confidence score is an integer at most 100
(non-negativity is inherent in the `Nat` representation), and improving any
single field's outcome while holding the other seven fixed never lowers the
score. -/
theorem confidence_in_range_and_monotone :
    (∀ s : String, (extract s).confidenceScore ≤ 100) ∧
    (∀ (r : ExtractionResults) (f : FieldKind) (v : FieldExtractionResult),
        ImprovesTo (getR r f) v → confidenceScore r ≤ confidenceScore (setR r f v)) := by
  constructor
  · intro s
    exact min_le_left _ _
  · intro r f v h
    have hc := contribution_le_of_improvesTo h
    have hw : weightedTotal r ≤ weightedTotal (setR r f v) := by
      cases f <;>
        simp only [weightedTotal, canonicalOrder, getR, setR, fieldWeight, List.map_cons,
          List.map_nil, List.sum_cons, List.sum_nil] <;>
        simp only [getR] at hc <;>
        omega
    exact min_le_min le_rfl (Nat.div_le_div_right (by omega))

/-- Witness for C1: improving the title field from NotFound raises the score
of the all-absent result set. -/
theorem confidence_in_range_and_monotone_witness :
    ImprovesTo (getR emptyResults .title) (.found "Jazz Night" 100) ∧
      confidenceScore emptyResults ≤
        confidenceScore (setR emptyResults .title (.found "Jazz Night" 100)) :=
  ⟨ImprovesTo.ofNotFound "Jazz Night" 100,
   confidence_in_range_and_monotone.2 emptyResults .title _
     (ImprovesTo.ofNotFound "Jazz Night" 100)⟩

/-- Claim C4: empty or whitespace-only input yields the all-absent record
with confidence score exactly 0, and no error is possible (`extract` is a
total function). -/
theorem extract_degenerate (s : String) (h : ∀ c ∈ s.toList, c.isWhitespace = true) :
    extract s = emptyEventRecord ∧ (extract s).confidenceScore = 0 := by
  have hn : normalizeLines s = [] := normalizeLines_of_ws s h
  have he : extract s = emptyEventRecord := by
    show recordOf (runResults canonicalOrder (normalizeLines s)) = emptyEventRecord
    rw [hn]
    rfl
  exact ⟨he, by rw [he]; rfl⟩

/-- Witness for C4 on a concrete whitespace-only input. -/
theorem extract_degenerate_witness :
    (∀ c ∈ ("  \n\t ".toList), c.isWhitespace = true) ∧
      (extract "  \n\t " = emptyEventRecord ∧ (extract "  \n\t ").confidenceScore = 0) :=
  ⟨by decide, extract_degenerate "  \n\t " (by decide)⟩

/-- Claim C6: running the eight extractors in any covering order yields the
same EventRecord, and the record's score is computed from the eight
extraction results alone. -/
theorem extract_order_deterministic :
    (∀ (s : String) (o1 o2 : List FieldKind),
        (∀ f, f ∈ o1) → (∀ f, f ∈ o2) → runPipeline o1 s = runPipeline o2 s) ∧
    (∀ (order : List FieldKind) (s : String),
        (∀ f, f ∈ order) → runPipeline order s = extract s) ∧
    (∀ (order : List FieldKind) (s : String),
        (runPipeline order s).confidenceScore
          = confidenceScore (runResults order (normalizeLines s))) := by
  refine ⟨?_, ?_, ?_⟩
  · intro s o1 o2 h1 h2
    unfold runPipeline
    rw [runResults_complete o1 _ h1, runResults_complete o2 _ h2]
  · intro order s h
    unfold extract runPipeline
    rw [runResults_complete order _ h]
  · intro order s
    rfl

/-- Witness for C6: the reversed invocation order reproduces the canonical
record on a concrete input. -/
theorem extract_order_deterministic_witness :
    (∀ f : FieldKind, f ∈ canonicalOrder.reverse) ∧
      runPipeline canonicalOrder.reverse "Spring Jazz Night" = extract "Spring Jazz Night" :=
  ⟨fun f => by cases f <;> decide,
   extract_order_deterministic.2.1 canonicalOrder.reverse "Spring Jazz Night"
     (fun f => by cases f <;> decide)⟩

/-- Members of the ranked, deduplicated output come from the input list. -/
theorem mem_of_mem_rankAndDedup (l : List RankedNearbyEvent) (e : RankedNearbyEvent)
    (he : e ∈ rankAndDedup l) : e ∈ l :=
  (List.perm_insertionSort rankRel l).subset ((dedupBy_sublist identityKey _).subset he)

/-- The ranked, deduplicated output is sorted by the ranking order. -/
theorem rankAndDedup_sorted (l : List RankedNearbyEvent) :
    (rankAndDedup l).Sorted rankRel :=
  (List.sorted_insertionSort rankRel l).sublist
    (dedupBy_sublist identityKey (List.insertionSort rankRel l))

/-- Members of the mode filter's output come from its input. -/
theorem mem_of_mem_modeFilter (mode : NearbyMode) (category : Option String)
    (l : List RankedNearbyEvent) (e : RankedNearbyEvent) (he : e ∈ modeFilter mode category l) :
    e ∈ l := by
  cases mode with
  | allNearby => exact he
  | sameCategory => exact (List.mem_filter.mp he).1

/-- Every member of the radius filter's output is within the radius. -/
theorem distance_le_of_mem_radiusFilter (l : List RankedNearbyEvent) (e : RankedNearbyEvent)
    (he : e ∈ radiusFilter l) : e.distanceKm ≤ searchRadiusKm :=
  of_decide_eq_true (List.mem_filter.mp he).2

/-- Claim C2: every successful `findNearby` result set has all elements
within the 5 km radius, no two elements sharing a stable identity, and is
sorted ascending by distance with title lexical tie-break. -/
theorem findNearby_result_invariants {α : Type} (resolve : String → Option α)
    (dist : α → α → ℚ) (feed : Except Unit (List (CandidateEvent α)))
    (venue : String) (category : Option String) (mode : NearbyMode)
    (l : List RankedNearbyEvent)
    (h : findNearby resolve dist feed venue category mode = .ok l) :
    (∀ e ∈ l, e.distanceKm ≤ searchRadiusKm) ∧
      l.Pairwise (fun a b => identityKey a ≠ identityKey b) ∧
      l.Sorted rankRel := by
  rw [findNearby] at h
  cases hres : resolve venue with
  | none => rw [hres] at h; simp at h
  | some origin =>
    rw [hres] at h
    cases feed with
    | error u => simp at h
    | ok cands =>
      simp only [Except.ok.injEq] at h
      subst h
      refine ⟨?_, dedupBy_pairwise _ _, rankAndDedup_sorted _⟩
      intro e he
      exact distance_le_of_mem_radiusFilter _ e
        (mem_of_mem_modeFilter mode category _ e (mem_of_mem_rankAndDedup _ e he))

/-- Witness for C2 on a concrete two-candidate feed. -/
theorem findNearby_result_invariants_witness :
    (∀ e ∈ [({ id := some "2", title := "Alpha", venue := "V2", category := none,
                date := none, distanceKm := 3 } : RankedNearbyEvent),
             { id := some "1", title := "Beta", venue := "V1", category := some "music",
                date := none, distanceKm := 3 }],
        e.distanceKm ≤ searchRadiusKm) ∧
      List.Pairwise (fun a b => identityKey a ≠ identityKey b)
        [({ id := some "2", title := "Alpha", venue := "V2", category := none,
            date := none, distanceKm := 3 } : RankedNearbyEvent),
         { id := some "1", title := "Beta", venue := "V1", category := some "music",
            date := none, distanceKm := 3 }] ∧
      List.Sorted rankRel
        [({ id := some "2", title := "Alpha", venue := "V2", category := none,
            date := none, distanceKm := 3 } : RankedNearbyEvent),
         { id := some "1", title := "Beta", venue := "V1", category := some "music",
            date := none, distanceKm := 3 }] :=
  findNearby_result_invariants (fun _ => some ()) (fun _ _ => 3)
    (.ok [{ id := some "1", title := "Beta", venue := "V1", coord := some (),
            category := some "music", date := none },
          { id := some "2", title := "Alpha", venue := "V2", coord := some (),
            category := none, date := none }])
    "Hall" none .allNearby _ (by rfl)

/-- The catch branch always produces a non-empty error message. -/
theorem fetchErrorMessage_ne_empty (detail : Option String) :
    fetchErrorMessage detail ≠ "" := by
  cases detail with
  | none => decide
  | some d =>
    by_cases hd : d = "" <;> simp [fetchErrorMessage, hd]

/-- Claim C3: geo-resolution failure and feed failure surface as distinct
errors (never an empty result list), and the Nearby page renders a failure
as the error banner and never as the zero-results empty state, which is
reserved for an error-free empty list. -/
theorem nearby_errors_surfaced :
    (∀ (α : Type) (resolve : String → Option α) (dist : α → α → ℚ)
        (feed : Except Unit (List (CandidateEvent α))) (venue : String)
        (category : Option String) (mode : NearbyMode),
        resolve venue = none →
          findNearby resolve dist feed venue category mode = .error .venueNotResolved) ∧
    (∀ (α : Type) (resolve : String → Option α) (dist : α → α → ℚ) (venue : String)
        (category : Option String) (mode : NearbyMode) (origin : α),
        resolve venue = some origin →
          findNearby resolve dist (.error ()) venue category mode = .error .feedUnavailable) ∧
    (∀ e : NearbyError,
        (Except.error e : Except NearbyError (List RankedNearbyEvent)) ≠ .ok []) ∧
    (∀ (v c : String) (sa : Bool) (d : Option String) (s : NearbyState),
        v ≠ "" →
          showsErrorBanner (fetchNearby v c sa (.failure d) s).1 = true ∧
            showsEmptyState (fetchNearby v c sa (.failure d) s).1 = false) ∧
    (∀ (v c : String) (sa : Bool) (s : NearbyState),
        v ≠ "" →
          showsErrorBanner (fetchNearby v c sa (.success (some [])) s).1 = false ∧
            showsEmptyState (fetchNearby v c sa (.success (some [])) s).1 = true) := by
  refine ⟨?_, ?_, ?_, ?_, ?_⟩
  · intro α resolve dist feed venue category mode h
    rw [findNearby, h]
  · intro α resolve dist venue category mode origin h
    rw [findNearby, h]
  · intro e
    simp
  · intro v c sa d s hv
    rw [fetchNearby, if_neg hv]
    constructor
    · simp [showsErrorBanner, bne_iff_ne, fetchErrorMessage_ne_empty d]
    · simp [showsEmptyState, fetchErrorMessage_ne_empty d]
  · intro v c sa s hv
    rw [fetchNearby, if_neg hv]
    exact ⟨rfl, rfl⟩

/-- Witness for C3 at concrete resolver, feed, and page inputs. -/
theorem nearby_errors_surfaced_witness :
    findNearby (fun _ : String => (none : Option Unit)) (fun _ _ => (3 : ℚ)) (.ok [])
        "Unknown Place XYZ123" none .allNearby = .error .venueNotResolved ∧
      findNearby (fun _ : String => some ()) (fun _ _ => (3 : ℚ)) (.error ())
        "Blue Room" none .allNearby = .error .feedUnavailable ∧
      showsErrorBanner
        (fetchNearby "Blue Room" "" false (.failure none) initialNearbyState).1 = true ∧
      showsEmptyState
        (fetchNearby "Blue Room" "" false (.success (some [])) initialNearbyState).1 = true :=
  ⟨nearby_errors_surfaced.1 Unit (fun _ => none) (fun _ _ => 3) (.ok [])
      "Unknown Place XYZ123" none .allNearby rfl,
   nearby_errors_surfaced.2.1 Unit (fun _ => some ()) (fun _ _ => 3)
      "Blue Room" none .allNearby () rfl,
   (nearby_errors_surfaced.2.2.2.1 "Blue Room" "" false none initialNearbyState
      (by decide)).1,
   (nearby_errors_surfaced.2.2.2.2 "Blue Room" "" false initialNearbyState
      (by decide)).2⟩

/-- Claim C5: for every input, every element of a successful SameCategory
result matches the queried category, so the matcher never internally
substitutes an AllNearby result when SameCategory yields zero matches; a
concrete divergence pair shows both modes on the same inputs (empty versus
non-empty); and on the Nearby page one fetch with the show_all toggle off
issues exactly one request with `show_all = false`, even when the response
is empty — switching modes takes a fresh request. -/
theorem sameCategory_no_fallback :
    (∀ (α : Type) (resolve : String → Option α) (dist : α → α → ℚ)
        (feed : Except Unit (List (CandidateEvent α))) (venue : String)
        (category : Option String) (l : List RankedNearbyEvent),
        findNearby resolve dist feed venue category .sameCategory = .ok l →
          ∀ e ∈ l, catMatches e.category category = true) ∧
      findNearby (fun _ : String => some ()) (fun _ _ => (3 : ℚ))
        (.ok [{ id := some "1", title := "Jazz Eve", venue := "Hall", coord := some (),
                category := some "music", date := none }])
        "Hall" (some "workshop") .sameCategory = .ok [] ∧
      findNearby (fun _ : String => some ()) (fun _ _ => (3 : ℚ))
        (.ok [{ id := some "1", title := "Jazz Eve", venue := "Hall", coord := some (),
                category := some "music", date := none }])
        "Hall" (some "workshop") .allNearby
        = .ok [{ id := some "1", title := "Jazz Eve", venue := "Hall",
                 category := some "music", date := none, distanceKm := 3 }] ∧
      (∀ (v c : String), v ≠ "" →
          fetchNearby v c false (.success (some [])) initialNearbyState
            = ({ events := [], loading := false, error := "" }, [⟨v, c, false⟩])) := by
  refine ⟨?_, by rfl, by rfl, ?_⟩
  · intro α resolve dist feed venue category l h e he
    rw [findNearby] at h
    cases hres : resolve venue with
    | none => rw [hres] at h; simp at h
    | some origin =>
      rw [hres] at h
      cases feed with
      | error u => simp at h
      | ok cands =>
        simp only [Except.ok.injEq] at h
        subst h
        have hmem := mem_of_mem_rankAndDedup _ e he
        exact (List.mem_filter.mp hmem).2
  · intro v c hv
    rw [fetchNearby, if_neg hv]
    rfl

/-- Witness for C5: a SameCategory run whose single result matches the
queried category, and one empty-response fetch with the toggle off. -/
theorem sameCategory_no_fallback_witness :
    (∀ e ∈ [({ id := some "1", title := "Jazz Eve", venue := "Hall",
               category := some "music", date := none, distanceKm := 3 } : RankedNearbyEvent)],
        catMatches e.category (some "music") = true) ∧
      ("Hall" : String) ≠ "" ∧
      fetchNearby "Hall" "music" false (.success (some [])) initialNearbyState
        = ({ events := [], loading := false, error := "" }, [⟨"Hall", "music", false⟩]) :=
  ⟨sameCategory_no_fallback.1 Unit (fun _ => some ()) (fun _ _ => 3)
      (.ok [{ id := some "1", title := "Jazz Eve", venue := "Hall", coord := some (),
              category := some "music", date := none }])
      "Hall" (some "music") _ (by rfl),
   by decide,
   sameCategory_no_fallback.2.2.2 "Hall" "music" (by decide)⟩
